import Mathlib

/-!
Verification of `backup-tagger` (src/src/main.rs), a CLI that computes
periodic-retention tags from the current time and drives external backup
pipelines (surrealdb streamed export, tikv distributed raw backup), tagging
the uploaded objects in an S3-compatible object store.

External collaborators (the `cron_parser` crate, `chrono` instant
arithmetic, `serde_json`'s string-level JSON scanner, and the invoked
external processes) are modelled as oracle parameters; everything else is
translated directly from the Rust source.  Timestamps are modelled as
seconds (`Int`), matching `chrono`'s second-granularity `num_seconds`
arithmetic used by the program.
-/

namespace BackupTagger

/-- `struct Tag { key, value }` from src/src/main.rs lines 114-119. -/
structure Tag where
  key : String
  value : String
deriving DecidableEq, Repr

/-- The baseline tag pushed unconditionally in `main` (lines 147-151). -/
def standardTag : Tag := ⟨"standard", "1"⟩

/-- `fn periods` (src/src/main.rs lines 198-275): the five period
definitions, each a cron expression built from the configured offsets, a
tag, and the `marks_period_end` flag. -/
def periods (dayOffsetInHours minutesOffsetFromHour everyNHours : Int) :
    List (String × Tag × Bool) :=
  [ (toString minutesOffsetFromHour ++ " " ++
       toString (everyNHours + dayOffsetInHours) ++ " * * *",
     ⟨"nightly", "1"⟩, false),
    (toString minutesOffsetFromHour ++ " " ++
       toString (everyNHours + dayOffsetInHours) ++ " * * 6",
     ⟨"weekly", "1"⟩, false),
    (toString minutesOffsetFromHour ++ " " ++
       toString (everyNHours + dayOffsetInHours) ++ " 1 * *",
     ⟨"monthly", "1"⟩, true),
    (toString minutesOffsetFromHour ++ " " ++
       toString (everyNHours + dayOffsetInHours) ++ " 1 */3 *",
     ⟨"quarterly", "1"⟩, true),
    (toString minutesOffsetFromHour ++ " " ++
       toString (everyNHours + dayOffsetInHours) ++ " 1 1 *",
     ⟨"yearly", "1"⟩, true) ]

/-- The jitter subtracted from `now` before querying the cron evaluator:
`Duration::minutes(args.lag_window_in_minutes / 4)` (line 142), in seconds.
Rust `i64` division truncates toward zero, hence `Int.tdiv`. -/
def jitterSeconds (lagWindowInMinutes : Int) : Int :=
  60 * lagWindowInMinutes.tdiv 4

/-- `now.checked_sub_signed(Duration::minutes(lag/4))` (lines 141-144).
`checkedSub` is the oracle for chrono's fallible instant subtraction
(`checked_sub_signed`), which returns `none` on range overflow. -/
def nowComparisonValue (checkedSub : Int → Int → Option Int)
    (now lagWindowInMinutes : Int) : Option Int :=
  checkedSub now (jitterSeconds lagWindowInMinutes)

/-- The per-period loop of `main` (lines 154-169).  `cronParse` is the
oracle for `cron_parser::parse` (`none` = unparseable expression, `some t`
= next occurrence after the queried instant).  For each check: if the
expression parses, subtract one day (86400 s) via chrono's checked
subtraction when `marks_period_end` is set (fatal on failure), and append
the tag when `|next_when - now| < lag_window_in_minutes * 60` (line 164,
strict). -/
def processChecks (cronParse : String → Int → Option Int)
    (checkedSub : Int → Int → Option Int)
    (now nowCmp lagWindowInMinutes : Int) :
    List (String × Tag × Bool) → Except String (List Tag)
  | [] => .ok []
  | (expr, tag, isEnd) :: rest =>
    match cronParse expr nowCmp with
    | none => processChecks cronParse checkedSub now nowCmp lagWindowInMinutes rest
    | some next =>
      match (if isEnd then checkedSub next 86400 else some next) with
      | none => .error "Unable to adjust next matching run time for period end"
      | some nextWhen =>
        match processChecks cronParse checkedSub now nowCmp lagWindowInMinutes rest with
        | .error e => .error e
        | .ok restTags =>
          if |nextWhen - now| < lagWindowInMinutes * 60 then .ok (tag :: restTags)
          else .ok restTags

/-- The tag-set computation of `main` (lines 128-169): compute the jittered
comparison instant (fatal on failure), seed the result with the baseline
tag, then run the per-period loop over `periods`. -/
def runTags (cronParse : String → Int → Option Int)
    (checkedSub : Int → Int → Option Int)
    (now lagWindowInMinutes dayOffsetInHours minutesOffsetFromHour everyNHours : Int) :
    Except String (List Tag) :=
  match nowComparisonValue checkedSub now lagWindowInMinutes with
  | none => .error "Unable to apply jitter to current UTC timestamp"
  | some nowCmp =>
    match processChecks cronParse checkedSub now nowCmp lagWindowInMinutes
        (periods dayOffsetInHours minutesOffsetFromHour everyNHours) with
    | .error e => .error e
    | .ok rest => .ok (standardTag :: rest)

/-- `main` lines 176-178 / 184-187: the endpoint override triple is kept
only when all three of endpoint, id, key are non-blank after trimming. -/
def s3EndpointOf (awsEndpoint awsId awsKey : String) :
    Option (String × String × String) :=
  if awsEndpoint.trim = "" ∨ awsId.trim = "" ∨ awsKey.trim = "" then none
  else some (awsEndpoint, awsId, awsKey)

/-- The observable result of one external process: exit status plus the
captured streams.  A stream is `none` when its bytes are not valid UTF-8
(so that `String::from_utf8(...)?` fails), else `some` of its text. -/
structure Output where
  status : Int
  stdout : Option String
  stderr : Option String
deriving DecidableEq, Repr

/-- `std::process::Command` as the program observes it: program path,
accumulated argument list, accumulated environment overrides.  `.arg`
appends; `.env` inserts (replacing an existing key), and both persist on
the same command value across invocations — faithfully reproducing the
reuse of the single mutable `aws_command` in the source. -/
structure Cmd where
  program : String
  args : List String
  env : List (String × String)
deriving DecidableEq, Repr

def Cmd.new (p : String) : Cmd := ⟨p, [], []⟩

def Cmd.addArgs (c : Cmd) (xs : List String) : Cmd :=
  ⟨c.program, c.args ++ xs, c.env⟩

def Cmd.envInsert (c : Cmd) (k v : String) : Cmd :=
  if c.env.any (fun p => p.1 = k) then
    ⟨c.program, c.args, c.env.map (fun p => if p.1 = k then (k, v) else p)⟩
  else ⟨c.program, c.args, c.env ++ [(k, v)]⟩

/-- `.env("AWS_ACCESS_KEY_ID", id).env("AWS_SECRET_ACCESS_KEY", key)`. -/
def Cmd.envCreds (c : Cmd) (awsId awsKey : String) : Cmd :=
  (c.envInsert "AWS_ACCESS_KEY_ID" awsId).envInsert "AWS_SECRET_ACCESS_KEY" awsKey

/-- Argument block of the `create-bucket` invocation (lines 311-346 and
452-487), with or without the endpoint override. -/
def createBucketArgs (bucketName : String) :
    Option (String × String × String) → List String
  | some t => ["s3api", "create-bucket", "--endpoint-url", t.1,
               "--bucket", bucketName, "--output", "json"]
  | none => ["s3api", "create-bucket", "--bucket", bucketName,
             "--output", "json"]

/-- The `aws` command value after the create-bucket step: credentials are
injected into the environment only in the override branch. -/
def awsCreateBucketCmd (binPath bucketName : String) :
    Option (String × String × String) → Cmd
  | some t => ((Cmd.new (binPath ++ "/bin/aws")).envCreds t.2.1 t.2.2).addArgs
      (createBucketArgs bucketName (some t))
  | none => (Cmd.new (binPath ++ "/bin/aws")).addArgs
      (createBucketArgs bucketName none)

/-- Argument block of the `list-objects` invocation (lines 373-394). -/
def listObjectsArgs (bucketName storageKey : String) :
    Option (String × String × String) → List String
  | some t => ["s3api", "list-objects", "--endpoint-url", t.1,
               "--bucket", bucketName, "--prefix", storageKey,
               "--output", "json"]
  | none => ["s3api", "list-objects", "--bucket", bucketName,
             "--prefix", storageKey, "--output", "json"]

/-- The `aws` command value at the list-objects invocation: it is the same
mutable command as the create-bucket step, so the new arguments are
appended after the create-bucket ones. -/
def awsListObjectsCmd (prev : Cmd) (bucketName storageKey : String) :
    Option (String × String × String) → Cmd
  | some t => (prev.envCreds t.2.1 t.2.2).addArgs
      (listObjectsArgs bucketName storageKey (some t))
  | none => prev.addArgs (listObjectsArgs bucketName storageKey none)

/-- The `tikv-br backup raw` invocation (lines 349-368), a fresh command. -/
def tikvBrCmd (binPath pdHostAndPort bucketName storageKey : String) :
    Option (String × String × String) → Cmd
  | some t => ⟨binPath ++ "/bin/tikv-br",
      ["backup", "raw", "--pd=" ++ pdHostAndPort,
       "--send-credentials-to-tikv=true",
       "--s3.endpoint=" ++ t.1,
       "--storage=s3://" ++ bucketName ++ "/" ++ storageKey ++
         "?access-key=" ++ t.2.1 ++ "&secret-access-key=" ++ t.2.2], []⟩
  | none => ⟨binPath ++ "/bin/tikv-br",
      ["backup", "raw", "--pd=" ++ pdHostAndPort,
       "--send-credentials-to-tikv=false",
       "--storage=s3://" ++ bucketName ++ "/" ++ storageKey], []⟩

/-- JSON values, for the list-objects response document. -/
inductive Json where
  | null : Json
  | bool : Bool → Json
  | num : Int → Json
  | str : String → Json
  | arr : List Json → Json
  | obj : List (String × Json) → Json

/-- Field lookup in a JSON object (serde takes the matching field). -/
def jsonLookup (fields : List (String × Json)) (k : String) : Option Json :=
  (fields.find? (fun p => p.1 = k)).map (fun p => p.2)

/-- serde deserialization of `struct Object { key: String }` with
PascalCase renaming (lines 283-287): requires a `Key` string field. -/
def deserializeObjectKey : Json → Except String String
  | .obj fields =>
    match jsonLookup fields "Key" with
    | some (.str s) => .ok s
    | some _ => .error "invalid type for field Key"
    | none => .error "missing field Key"
  | _ => .error "invalid type: expected struct Object"

def deserializeContents : List Json → Except String (List String)
  | [] => .ok []
  | j :: rest =>
    match deserializeObjectKey j with
    | .error e => .error e
    | .ok k =>
      match deserializeContents rest with
      | .error e => .error e
      | .ok ks => .ok (k :: ks)

/-- serde deserialization of `struct ListObjectResult { contents: Vec<Object> }`
with PascalCase renaming (lines 277-281).  The `contents` field has no
`#[serde(default)]`, so a missing `Contents` field is an error.  The key
strings are returned directly (the source immediately maps the parsed
objects to their `key` fields, lines 401-405). -/
def deserializeListObjectResult : Json → Except String (List String)
  | .obj fields =>
    match jsonLookup fields "Contents" with
    | some (.arr xs) => deserializeContents xs
    | some _ => .error "invalid type for field Contents"
    | none => .error "missing field Contents"
  | _ => .error "invalid type: expected struct ListObjectResult"

/-- Lines 397-400: decode the listing stdout as UTF-8 then parse it with
`serde_json::from_str::<ListObjectResult>`.  `jsonParse` is the oracle for
serde_json's string-level scanner (`none` = not well-formed JSON). -/
def parseListResponse (jsonParse : String → Option Json) :
    Option String → Except String (List String)
  | none => .error "invalid utf-8 in list-objects stdout"
  | some s =>
    match jsonParse s with
    | none => .error "malformed json in list-objects stdout"
    | some j => deserializeListObjectResult j

/-- Argument block appended per key by the tikv tagging loop (lines
409-416); note: no endpoint branch and no env injection here. -/
def tagArgsBlock (bucketName tags key : String) : List String :=
  ["s3api", "put-object-tagging", "--bucket", bucketName,
   "--tagging", tags, "--key", key]

/-- The per-key tagging loop of `tikv_backup` (lines 409-419), threading
the shared mutable `aws_command`.  Each iteration appends its block to the
same command and runs it; a spawn failure or non-UTF-8 output aborts via
`?`, while any exit status merely gets logged and the loop continues.
Returns the trace of issued commands and the loop's result. -/
def tagLoop (exec : Cmd → Except String Output) (bucketName tags : String) :
    List String → Cmd → List Cmd × Except String Unit
  | [], _ => ([], .ok ())
  | k :: rest, cmd =>
    let c := cmd.addArgs (tagArgsBlock bucketName tags k)
    match exec c with
    | .error e => ([c], .error e)
    | .ok o =>
      match o.stdout, o.stderr with
      | some _, some _ =>
        let r := tagLoop exec bucketName tags rest c
        (c :: r.1, r.2)
      | _, _ => ([c], .error "invalid utf-8 in put-object-tagging output")

/-- `fn tikv_backup` (lines 289-427).  `exec` is the oracle for running an
external command (`.error` = the `Command` failed to start or be waited
on, `.ok` = it ran and produced an `Output`).  The create-bucket result is
swallowed by `unwrap_or_else` and its output is unused (lines 311-346), so
only the command itself is recorded.  Returns the trace of issued commands
and the function's result (the tikv-br stdout on success). -/
def tikv_backup (exec : Cmd → Except String Output)
    (jsonParse : String → Option Json)
    (binPath bucketName pdHostAndPort tags formattedTime : String)
    (s3Endpoint : Option (String × String × String)) :
    List Cmd × Except String String :=
  let storageKey := "tikv/" ++ formattedTime
  let cb := awsCreateBucketCmd binPath bucketName s3Endpoint
  let br := tikvBrCmd binPath pdHostAndPort bucketName storageKey s3Endpoint
  match exec br with
  | .error e => ([cb, br], .error e)
  | .ok brOut =>
    match brOut.stdout with
    | none => ([cb, br], .error "invalid utf-8 in tikv-br stdout")
    | some brStdout =>
      match brOut.stderr with
      | none => ([cb, br], .error "invalid utf-8 in tikv-br stderr")
      | some _ =>
        let lo := awsListObjectsCmd cb bucketName storageKey s3Endpoint
        match exec lo with
        | .error e => ([cb, br, lo], .error e)
        | .ok loOut =>
          match loOut.stdout with
          | none => ([cb, br, lo], .error "invalid utf-8 in list-objects stdout")
          | some listResponse =>
            match loOut.stderr with
            | none => ([cb, br, lo], .error "invalid utf-8 in list-objects stderr")
            | some _ =>
              match parseListResponse jsonParse (some listResponse) with
              | .error e => ([cb, br, lo], .error e)
              | .ok keys =>
                let r := tagLoop exec bucketName tags keys lo
                ([cb, br, lo] ++ r.1,
                 match r.2 with
                 | .error e => .error e
                 | .ok _ => .ok brStdout)

/-- Storage key of the streamed export (lines 488-489): the formatted
timestamp with every `+` removed, under `surrealdb/{namespace}/…​.zst`. -/
def surrealStorageKey (namespace_ formattedTime : String) : String :=
  "surrealdb/" ++ namespace_ ++ "/" ++ (formattedTime.replace "+" "") ++ ".zst"

/-- Argument block of the streamed upload `aws s3 cp` (lines 492-513). -/
def cpArgs (bucketName storageKey : String) :
    Option (String × String × String) → List String
  | some t => ["s3", "cp", "--endpoint-url", t.1, "-",
               "s3://" ++ bucketName ++ "/" ++ storageKey]
  | none => ["s3", "cp", "-", "s3://" ++ bucketName ++ "/" ++ storageKey]

def awsCpCmd (prev : Cmd) (bucketName storageKey : String) :
    Option (String × String × String) → Cmd
  | some t => (prev.envCreds t.2.1 t.2.2).addArgs
      (cpArgs bucketName storageKey (some t))
  | none => prev.addArgs (cpArgs bucketName storageKey none)

/-- The compressor invocation (lines 514-523). -/
def zstdCmd (binPath : String) : Cmd :=
  ⟨binPath ++ "/bin/zstd", ["--force", "--stdout", "--adapt", "--rm", "-"], []⟩

/-- The export invocation (lines 524-533). -/
def surrealCmd (binPath address password namespace_ database : String) : Cmd :=
  ⟨binPath ++ "/bin/surreal",
   ["export", "-e", "http://" ++ address, "-u", "root", "-p", password,
    "--namespace", namespace_, "--database", database, "-"], []⟩

/-- Argument block of the streamed-export tagging invocation (lines
540-561), which does branch on the endpoint override. -/
def putTaggingArgsStreamed (bucketName tags storageKey : String) :
    Option (String × String × String) → List String
  | some t => ["s3api", "put-object-tagging", "--endpoint-url", t.1,
               "--bucket", bucketName, "--tagging", tags, "--key", storageKey]
  | none => ["s3api", "put-object-tagging", "--bucket", bucketName,
             "--tagging", tags, "--key", storageKey]

def awsPutTaggingCmdStreamed (prev : Cmd) (bucketName tags storageKey : String) :
    Option (String × String × String) → Cmd
  | some t => (prev.envCreds t.2.1 t.2.2).addArgs
      (putTaggingArgsStreamed bucketName tags storageKey (some t))
  | none => prev.addArgs (putTaggingArgsStreamed bucketName tags storageKey none)

/-- The tagging command issued by `surrealdb_backup`, built (like every
other `aws` call there) on the same mutable command value. -/
def surrealTaggingCmd (binPath bucketName namespace_ tags formattedTime : String)
    (s3Endpoint : Option (String × String × String)) : Cmd :=
  awsPutTaggingCmdStreamed
    (awsCpCmd (awsCreateBucketCmd binPath bucketName s3Endpoint)
      bucketName (surrealStorageKey namespace_ formattedTime) s3Endpoint)
    bucketName tags (surrealStorageKey namespace_ formattedTime) s3Endpoint

/-- `fn surrealdb_backup` (lines 429-568).  Spawning and waiting on a
stage are merged into one `exec` oracle call (`.error` covers both a spawn
failure and a wait failure).  The pipeline statuses are captured but never
inspected: after the three stages ran, the export stage's stderr is
decoded (`?`, line 535) and then the tagging command is issued
unconditionally.  Returns the trace of issued commands and the function's
result (the upload stage's `Output` on success). -/
def surrealdb_backup (exec : Cmd → Except String Output)
    (binPath bucketName namespace_ database address password tags : String)
    (s3Endpoint : Option (String × String × String))
    (formattedTime : String) : List Cmd × Except String Output :=
  let cb := awsCreateBucketCmd binPath bucketName s3Endpoint
  let storageKey := surrealStorageKey namespace_ formattedTime
  let cp := awsCpCmd cb bucketName storageKey s3Endpoint
  match exec cp with
  | .error e => ([cb, cp], .error e)
  | .ok cpOut =>
    let z := zstdCmd binPath
    match exec z with
    | .error e => ([cb, cp, z], .error e)
    | .ok _ =>
      let su := surrealCmd binPath address password namespace_ database
      match exec su with
      | .error e => ([cb, cp, z, su], .error e)
      | .ok suOut =>
        match suOut.stderr with
        | none => ([cb, cp, z, su], .error "invalid utf-8 in surreal stderr")
        | some _ =>
          let tg := awsPutTaggingCmdStreamed cp bucketName tags storageKey s3Endpoint
          match exec tg with
          | .error e => ([cb, cp, z, su, tg], .error e)
          | .ok tgOut =>
            match tgOut.stdout with
            | none => ([cb, cp, z, su, tg], .error "invalid utf-8 in put-object-tagging stdout")
            | some _ => ([cb, cp, z, su, tg], .ok cpOut)

end BackupTagger

namespace BackupTagger

/-! ## Helper lemmas about the tag evaluator -/

theorem processChecks_sublist (cronParse : String → Int → Option Int)
    (checkedSub : Int → Int → Option Int) (now nowCmp lag : Int) :
    ∀ (checks : List (String × Tag × Bool)) (l : List Tag),
      processChecks cronParse checkedSub now nowCmp lag checks = .ok l →
      l.Sublist (checks.map (fun c => c.2.1))
  | [], l, h => by
    simp only [processChecks, Except.ok.injEq] at h
    simp [← h]
  | (expr, tag, isEnd) :: rest, l, h => by
    cases hp : cronParse expr nowCmp with
    | none =>
      simp only [processChecks, hp] at h
      exact (processChecks_sublist cronParse checkedSub now nowCmp lag rest l h).cons _
    | some next =>
      cases hd : (if isEnd then checkedSub next 86400 else some next) with
      | none =>
        simp only [processChecks, hp, hd] at h
        exact Except.noConfusion h
      | some nextWhen =>
        cases hr : processChecks cronParse checkedSub now nowCmp lag rest with
        | error e =>
          simp only [processChecks, hp, hd, hr] at h
          exact Except.noConfusion h
        | ok restTags =>
          simp only [processChecks, hp, hd, hr] at h
          by_cases hm : |nextWhen - now| < lag * 60
          · rw [if_pos hm] at h
            obtain rfl : tag :: restTags = l := by
              simpa using h
            exact (processChecks_sublist cronParse checkedSub now nowCmp lag
              rest restTags hr).cons₂ _
          · rw [if_neg hm] at h
            obtain rfl : restTags = l := by simpa using h
            exact (processChecks_sublist cronParse checkedSub now nowCmp lag
              rest restTags hr).cons _

theorem processChecks_congr (p q : String → Int → Option Int)
    (checkedSub : Int → Int → Option Int) (now nowCmp lag : Int)
    (h : ∀ e, p e nowCmp = q e nowCmp) :
    ∀ checks, processChecks p checkedSub now nowCmp lag checks
      = processChecks q checkedSub now nowCmp lag checks
  | [] => rfl
  | (expr, tag, isEnd) :: rest => by
    simp only [processChecks, h expr,
      processChecks_congr p q checkedSub now nowCmp lag h rest]

/-! ## C1, C2, C7, C8 -/

/-- C1: for every period whose schedule expression the cron evaluator
parses (returning `next`), the period's tag is appended if and only if
`|adjusted - now| < lag_window_in_minutes * 60` seconds (strict, so the
boundary is excluded), where `adjusted = next - 86400` (exactly one day)
when `marks_period_end` is true and `adjusted = next` otherwise. -/
theorem period_tag_iff_within_window
    (cronParse : String → Int → Option Int) (checkedSub : Int → Int → Option Int)
    (now nowCmp lagWindowInMinutes next : Int) (expr : String) (tag : Tag)
    (isEnd : Bool) (rest : List (String × Tag × Bool)) (restTags : List Tag)
    (hsub : ∀ t d r, checkedSub t d = some r → r = t - d)
    (hparse : cronParse expr nowCmp = some next)
    (hday : isEnd = true → checkedSub next 86400 ≠ none)
    (hrest : processChecks cronParse checkedSub now nowCmp lagWindowInMinutes rest
      = .ok restTags) :
    processChecks cronParse checkedSub now nowCmp lagWindowInMinutes
        ((expr, tag, isEnd) :: rest)
      = .ok ((if |(if isEnd then next - 86400 else next) - now|
                  < lagWindowInMinutes * 60
              then [tag] else []) ++ restTags) := by
  cases isEnd with
  | false =>
    simp only [processChecks, hparse, if_neg (by simp : ¬ False), Bool.false_eq_true,
      if_false, hrest]
    by_cases hm : |next - now| < lagWindowInMinutes * 60
    · rw [if_pos hm, if_pos hm]; rfl
    · rw [if_neg hm, if_neg hm]; rfl
  | true =>
    obtain ⟨r, hr⟩ : ∃ r, checkedSub next 86400 = some r := by
      cases hx : checkedSub next 86400 with
      | none => exact absurd hx (hday rfl)
      | some r => exact ⟨r, rfl⟩
    obtain rfl : r = next - 86400 := hsub next 86400 r hr
    simp only [processChecks, hparse, if_true, hr, hrest]
    by_cases hm : |next - 86400 - now| < lagWindowInMinutes * 60
    · rw [if_pos hm, if_pos hm]; rfl
    · rw [if_neg hm, if_neg hm]; rfl

theorem period_tag_iff_within_window_witness :
    processChecks (fun _ _ => some 0) (fun t d => some (t - d)) 0 (-300) 20
        [("30 4 * * *", ⟨"nightly", "1"⟩, false)]
      = .ok ((if |(if false then (0 : Int) - 86400 else 0) - 0| < 20 * 60
              then [(⟨"nightly", "1"⟩ : Tag)] else []) ++ []) :=
  period_tag_iff_within_window (fun _ _ => some 0) (fun t d => some (t - d))
    0 (-300) 20 0 "30 4 * * *" ⟨"nightly", "1"⟩ false [] []
    (fun _ _ _ h => (Option.some.inj h).symm) rfl
    (fun h => absurd h (by decide)) rfl

/-- C2 counterexample: with `lag_window_in_minutes = 22` and `now = 0`
(and chrono subtraction in range), the code's comparison instant is
`now - 300` seconds (`Duration::minutes(22 / 4)` = 5 minutes), not
`now - (22 * 60) / 4 = now - 330` seconds as the claim states. -/
theorem comparison_instant_counterexample :
    nowComparisonValue (fun t d => some (t - d)) 0 22 = some (-300)
    ∧ (0 : Int) - (22 * 60) / 4 = -330
    ∧ nowComparisonValue (fun t d => some (t - d)) 0 22 ≠ some (0 - (22 * 60) / 4) := by
  refine ⟨by decide, by decide, by decide⟩

/-- C2 (amended): the comparison instant is `now` minus
`60 * (lag_window_in_minutes / 4)` seconds — the minute count is divided
by four first, truncating toward zero, and only then converted to seconds;
a `none` from the chrono subtraction is a fatal error; and the instant is
computed once and reused for every period evaluation (the run's outcome
only depends on the cron oracle's answers at that single instant). -/
theorem comparison_instant_once_and_fatal
    (cronParse cronParse2 : String → Int → Option Int)
    (checkedSub : Int → Int → Option Int)
    (now lagWindowInMinutes dayOffsetInHours minutesOffsetFromHour everyNHours : Int) :
    (nowComparisonValue checkedSub now lagWindowInMinutes
        = checkedSub now (60 * lagWindowInMinutes.tdiv 4))
    ∧ (nowComparisonValue checkedSub now lagWindowInMinutes = none →
        runTags cronParse checkedSub now lagWindowInMinutes dayOffsetInHours
            minutesOffsetFromHour everyNHours
          = .error "Unable to apply jitter to current UTC timestamp")
    ∧ (∀ c, nowComparisonValue checkedSub now lagWindowInMinutes = some c →
        (∀ e, cronParse e c = cronParse2 e c) →
        runTags cronParse checkedSub now lagWindowInMinutes dayOffsetInHours
            minutesOffsetFromHour everyNHours
          = runTags cronParse2 checkedSub now lagWindowInMinutes dayOffsetInHours
              minutesOffsetFromHour everyNHours) := by
  refine ⟨rfl, ?_, ?_⟩
  · intro h
    simp only [runTags, h]
  · intro c hc hagree
    simp only [runTags, hc,
      processChecks_congr cronParse cronParse2 checkedSub now c lagWindowInMinutes hagree]

theorem comparison_instant_once_witness :
    runTags (fun _ t => some t) (fun t d => some (t - d)) 0 20 0 30 4
      = runTags (fun _ t => if t = -300 then some t else none)
          (fun t d => some (t - d)) 0 20 0 30 4 :=
  (comparison_instant_once_and_fatal (fun _ t => some t)
      (fun _ t => if t = -300 then some t else none)
      (fun t d => some (t - d)) 0 20 0 30 4).2.2 (-300) (by decide) (fun _ => by decide)

/-- C7: whenever the evaluator succeeds, the produced tag set starts with
the baseline `standard=1` tag, has between 1 and 6 entries, and the
matched period tags follow in the fixed catalog order (a sublist of
nightly, weekly, monthly, quarterly, yearly — never reordered). -/
theorem tag_set_shape
    (cronParse : String → Int → Option Int) (checkedSub : Int → Int → Option Int)
    (now lagWindowInMinutes dayOffsetInHours minutesOffsetFromHour everyNHours : Int)
    (ts : List Tag)
    (h : runTags cronParse checkedSub now lagWindowInMinutes dayOffsetInHours
        minutesOffsetFromHour everyNHours = .ok ts) :
    ts.head? = some standardTag ∧ 1 ≤ ts.length ∧ ts.length ≤ 6 ∧
    ∃ l, ts = standardTag :: l ∧
      l.Sublist [⟨"nightly", "1"⟩, ⟨"weekly", "1"⟩, ⟨"monthly", "1"⟩,
                 ⟨"quarterly", "1"⟩, ⟨"yearly", "1"⟩] := by
  cases hc : nowComparisonValue checkedSub now lagWindowInMinutes with
  | none =>
    simp only [runTags, hc] at h
    exact Except.noConfusion h
  | some c =>
    cases hp : processChecks cronParse checkedSub now c lagWindowInMinutes
        (periods dayOffsetInHours minutesOffsetFromHour everyNHours) with
    | error e =>
      simp only [runTags, hc, hp] at h
      exact Except.noConfusion h
    | ok rest =>
      simp only [runTags, hc, hp] at h
      obtain rfl : standardTag :: rest = ts := by simpa using h
      have hsub := processChecks_sublist cronParse checkedSub now c lagWindowInMinutes
        (periods dayOffsetInHours minutesOffsetFromHour everyNHours) rest hp
      have hmap : (periods dayOffsetInHours minutesOffsetFromHour everyNHours).map
          (fun c => c.2.1)
          = [⟨"nightly", "1"⟩, ⟨"weekly", "1"⟩, ⟨"monthly", "1"⟩,
             ⟨"quarterly", "1"⟩, ⟨"yearly", "1"⟩] := by
        simp [periods]
      rw [hmap] at hsub
      refine ⟨rfl, by simp, ?_, rest, rfl, hsub⟩
      have := hsub.length_le
      simp only [List.length_cons]
      simp at this
      omega

theorem tag_set_shape_witness :
    ([standardTag, ⟨"nightly", "1"⟩, ⟨"weekly", "1"⟩] : List Tag).head?
        = some standardTag
    ∧ 1 ≤ ([standardTag, ⟨"nightly", "1"⟩, ⟨"weekly", "1"⟩] : List Tag).length
    ∧ ([standardTag, ⟨"nightly", "1"⟩, ⟨"weekly", "1"⟩] : List Tag).length ≤ 6 :=
  ⟨(tag_set_shape (fun _ _ => some 0) (fun t d => some (t - d)) 0 20 0 30 4
      [standardTag, ⟨"nightly", "1"⟩, ⟨"weekly", "1"⟩] rfl).1,
   (tag_set_shape (fun _ _ => some 0) (fun t d => some (t - d)) 0 20 0 30 4
      [standardTag, ⟨"nightly", "1"⟩, ⟨"weekly", "1"⟩] rfl).2.1,
   (tag_set_shape (fun _ _ => some 0) (fun t d => some (t - d)) 0 20 0 30 4
      [standardTag, ⟨"nightly", "1"⟩, ⟨"weekly", "1"⟩] rfl).2.2.1⟩

/-- C8: a period whose schedule expression the cron evaluator rejects is
skipped silently — processing the list with that period at the front
yields exactly the result of processing the remaining periods, with no
tag appended and no error raised. -/
theorem unparseable_period_skipped
    (cronParse : String → Int → Option Int) (checkedSub : Int → Int → Option Int)
    (now nowCmp lagWindowInMinutes : Int) (expr : String) (tag : Tag) (isEnd : Bool)
    (rest : List (String × Tag × Bool))
    (h : cronParse expr nowCmp = none) :
    processChecks cronParse checkedSub now nowCmp lagWindowInMinutes
        ((expr, tag, isEnd) :: rest)
      = processChecks cronParse checkedSub now nowCmp lagWindowInMinutes rest := by
  simp only [processChecks, h]

theorem unparseable_period_skipped_witness :
    processChecks (fun _ _ => none) (fun t d => some (t - d)) 0 (-300) 20
        [("not a cron expression", ⟨"nightly", "1"⟩, false)]
      = processChecks (fun _ _ => none) (fun t d => some (t - d)) 0 (-300) 20 [] :=
  unparseable_period_skipped (fun _ _ => none) (fun t d => some (t - d))
    0 (-300) 20 "not a cron expression" ⟨"nightly", "1"⟩ false [] rfl

end BackupTagger

namespace BackupTagger

/-! ## Helper lemmas about commands and the tagging loop -/

theorem Cmd.envInsert_args (c : Cmd) (k v : String) : (c.envInsert k v).args = c.args := by
  unfold Cmd.envInsert
  split <;> rfl

theorem Cmd.envInsert_program (c : Cmd) (k v : String) :
    (c.envInsert k v).program = c.program := by
  unfold Cmd.envInsert
  split <;> rfl

theorem Cmd.envCreds_args (c : Cmd) (awsId awsKey : String) :
    (c.envCreds awsId awsKey).args = c.args := by
  simp [Cmd.envCreds, Cmd.envInsert_args]

theorem Cmd.envCreds_of_env_nil (c : Cmd) (awsId awsKey : String) (h : c.env = []) :
    (c.envCreds awsId awsKey).env
      = [("AWS_ACCESS_KEY_ID", awsId), ("AWS_SECRET_ACCESS_KEY", awsKey)] := by
  simp [Cmd.envCreds, Cmd.envInsert, h]

theorem tagBlock_getLast (c : Cmd) (bucketName tags k : String) :
    ((c.addArgs (tagArgsBlock bucketName tags k)).args).getLast? = some k := by
  show ((c.args ++ tagArgsBlock bucketName tags k)).getLast? = some k
  rw [List.getLast?_append_of_ne_nil _ (by simp [tagArgsBlock])]
  rfl

/-! ## C4 -/

/-- C4: in the tikv per-key tagging loop, as long as each issued command
starts and yields decodable output (its exit status being arbitrary), a
`put-object-tagging` invocation is issued for every key in the list, in
order: the trace has one command per key and the k-th command's final
argument is the k-th key.  A non-zero exit status of an earlier attempt
does not abort the remaining keys. -/
theorem tikv_tagging_attempts_every_key
    (exec : Cmd → Except String Output) (bucketName tags : String)
    (h : ∀ c, ∃ o, exec c = .ok o ∧ o.stdout.isSome = true ∧ o.stderr.isSome = true) :
    ∀ (keys : List String) (cmd : Cmd),
      ((tagLoop exec bucketName tags keys cmd).1.map (fun c => c.args.getLast?))
        = keys.map some
  | [], _ => rfl
  | k :: rest, cmd => by
    obtain ⟨o, ho, h1, h2⟩ := h (cmd.addArgs (tagArgsBlock bucketName tags k))
    obtain ⟨s1, hs1⟩ := Option.isSome_iff_exists.mp h1
    obtain ⟨s2, hs2⟩ := Option.isSome_iff_exists.mp h2
    simp only [tagLoop, ho, hs1, hs2, List.map_cons]
    rw [tagBlock_getLast cmd bucketName tags k,
      tikv_tagging_attempts_every_key exec bucketName tags h rest
        (cmd.addArgs (tagArgsBlock bucketName tags k))]

theorem tikv_tagging_attempts_every_key_witness :
    ((tagLoop (fun _ => .ok ⟨1, some "", some ""⟩) "bkt" "tagdoc"
        ["k1", "k2", "k3"] (Cmd.new "/bin/aws")).1.map (fun c => c.args.getLast?))
      = (["k1", "k2", "k3"] : List String).map some :=
  tikv_tagging_attempts_every_key (fun _ => .ok ⟨1, some "", some ""⟩) "bkt" "tagdoc"
    (fun _ => ⟨⟨1, some "", some ""⟩, rfl, rfl, rfl⟩) ["k1", "k2", "k3"] (Cmd.new "/bin/aws")

/-! ## C6 -/

theorem deserializeContents_map (ks : List String) :
    deserializeContents (ks.map (fun k => Json.obj [("Key", Json.str k)])) = .ok ks := by
  induction ks with
  | nil => rfl
  | cons k rest ih =>
    simp only [List.map_cons, deserializeContents, deserializeObjectKey, jsonLookup,
      List.find?, ih]
    rfl

/-- C6 counterexample: a well-formed JSON object with the `Contents`
field absent is rejected by the deserializer with a missing-field error
instead of yielding an empty key sequence. -/
theorem absent_contents_is_error :
    deserializeListObjectResult (Json.obj []) = .error "missing field Contents"
    ∧ deserializeListObjectResult (Json.obj []) ≠ .ok ([] : List String) :=
  ⟨rfl, fun h => Except.noConfusion h⟩

/-- C6 (amended): an empty (present) `Contents` array yields the empty
key sequence, and a well-formed `Contents` array of `Key` objects yields
exactly those keys; but an *absent* `Contents` field is a fatal parse
error, as are non-UTF-8 output and output that is not well-formed JSON. -/
theorem list_parse_amended (jsonParse : String → Option Json) (s : String)
    (fields : List (String × Json)) (ks : List String) :
    (deserializeListObjectResult (Json.obj [("Contents", Json.arr [])])
        = .ok ([] : List String))
    ∧ (jsonLookup fields "Contents" = none →
        deserializeListObjectResult (Json.obj fields) = .error "missing field Contents")
    ∧ (parseListResponse jsonParse none = .error "invalid utf-8 in list-objects stdout")
    ∧ (jsonParse s = none →
        parseListResponse jsonParse (some s)
          = .error "malformed json in list-objects stdout")
    ∧ (jsonLookup fields "Contents"
          = some (Json.arr (ks.map (fun k => Json.obj [("Key", Json.str k)]))) →
        deserializeListObjectResult (Json.obj fields) = .ok ks) := by
  refine ⟨rfl, ?_, rfl, ?_, ?_⟩
  · intro h
    simp only [deserializeListObjectResult, h]
  · intro h
    simp only [parseListResponse, h]
  · intro h
    simp only [deserializeListObjectResult, h, deserializeContents_map]

theorem list_parse_amended_witness :
    deserializeListObjectResult
        (Json.obj [("Contents",
          Json.arr [Json.obj [("Key", Json.str "a")], Json.obj [("Key", Json.str "b")]])])
      = .ok ["a", "b"] :=
  (list_parse_amended (fun _ => none) ""
      [("Contents",
        Json.arr [Json.obj [("Key", Json.str "a")], Json.obj [("Key", Json.str "b")]])]
      ["a", "b"]).2.2.2.2 rfl

end BackupTagger

namespace BackupTagger

/-! ## Structural lemmas about the command builders -/

theorem Cmd.ne_of_args_length {c d : Cmd} (h : c.args.length ≠ d.args.length) : c ≠ d :=
  fun he => h (by rw [he])

theorem awsCreateBucketCmd_args (binPath bucketName : String)
    (t : Option (String × String × String)) :
    (awsCreateBucketCmd binPath bucketName t).args = createBucketArgs bucketName t := by
  cases t <;> simp [awsCreateBucketCmd, Cmd.envCreds_args, Cmd.new, Cmd.addArgs]

theorem awsListObjectsCmd_args (prev : Cmd) (bucketName storageKey : String)
    (t : Option (String × String × String)) :
    (awsListObjectsCmd prev bucketName storageKey t).args
      = prev.args ++ listObjectsArgs bucketName storageKey t := by
  cases t <;> simp [awsListObjectsCmd, Cmd.envCreds_args, Cmd.addArgs]

theorem awsCpCmd_args (prev : Cmd) (bucketName storageKey : String)
    (t : Option (String × String × String)) :
    (awsCpCmd prev bucketName storageKey t).args = prev.args ++ cpArgs bucketName storageKey t := by
  cases t <;> simp [awsCpCmd, Cmd.envCreds_args, Cmd.addArgs]

theorem awsPutTaggingCmdStreamed_args (prev : Cmd) (bucketName tags storageKey : String)
    (t : Option (String × String × String)) :
    (awsPutTaggingCmdStreamed prev bucketName tags storageKey t).args
      = prev.args ++ putTaggingArgsStreamed bucketName tags storageKey t := by
  cases t <;> simp [awsPutTaggingCmdStreamed, Cmd.envCreds_args, Cmd.addArgs]

theorem tikvBr_ne_createBucket (binPath binPath2 pdHostAndPort bucketName storageKey
    bucketName2 : String) (t : Option (String × String × String)) :
    tikvBrCmd binPath pdHostAndPort bucketName storageKey t
      ≠ awsCreateBucketCmd binPath2 bucketName2 t := by
  apply Cmd.ne_of_args_length
  rw [awsCreateBucketCmd_args]
  cases t <;> simp [tikvBrCmd, createBucketArgs]

theorem listObjects_ne_createBucket (prev : Cmd) (bucketName storageKey bucketName2
    binPath2 : String) (t t2 : Option (String × String × String))
    (hprev : prev.args = (awsCreateBucketCmd binPath2 bucketName2 t2).args) :
    awsListObjectsCmd prev bucketName storageKey t
      ≠ awsCreateBucketCmd binPath2 bucketName2 t2 := by
  apply Cmd.ne_of_args_length
  rw [awsListObjectsCmd_args, hprev]
  cases t <;> simp [listObjectsArgs]

theorem cp_ne_createBucket (prev : Cmd) (bucketName storageKey bucketName2
    binPath2 : String) (t t2 : Option (String × String × String))
    (hprev : prev.args = (awsCreateBucketCmd binPath2 bucketName2 t2).args) :
    awsCpCmd prev bucketName storageKey t ≠ awsCreateBucketCmd binPath2 bucketName2 t2 := by
  apply Cmd.ne_of_args_length
  rw [awsCpCmd_args, hprev]
  cases t <;> simp [cpArgs]

theorem zstd_ne_createBucket (binPath binPath2 bucketName2 : String)
    (t : Option (String × String × String)) :
    zstdCmd binPath ≠ awsCreateBucketCmd binPath2 bucketName2 t := by
  apply Cmd.ne_of_args_length
  rw [awsCreateBucketCmd_args]
  cases t <;> simp [zstdCmd, createBucketArgs]

theorem surreal_ne_createBucket (binPath address password namespace_ database
    binPath2 bucketName2 : String) (t : Option (String × String × String)) :
    surrealCmd binPath address password namespace_ database
      ≠ awsCreateBucketCmd binPath2 bucketName2 t := by
  apply Cmd.ne_of_args_length
  rw [awsCreateBucketCmd_args]
  cases t <;> simp [surrealCmd, createBucketArgs]

theorem putTagging_ne_createBucket (prev : Cmd) (bucketName tags storageKey bucketName2
    binPath2 : String) (t t2 : Option (String × String × String))
    (hprev : (awsCreateBucketCmd binPath2 bucketName2 t2).args.length ≤ prev.args.length) :
    awsPutTaggingCmdStreamed prev bucketName tags storageKey t
      ≠ awsCreateBucketCmd binPath2 bucketName2 t2 := by
  apply Cmd.ne_of_args_length
  rw [awsPutTaggingCmdStreamed_args, List.length_append]
  have hblock : 1 ≤ (putTaggingArgsStreamed bucketName tags storageKey t).length := by
    cases t <;> simp [putTaggingArgsStreamed]
  omega

/-! ## Lemmas about the tagging loop trace -/

theorem tagLoop_mem_args (exec : Cmd → Except String Output) (bucketName tags : String) :
    ∀ (keys : List String) (cmd : Cmd), ∀ c ∈ (tagLoop exec bucketName tags keys cmd).1,
      ∃ i, i < keys.length ∧
        c.args = cmd.args ++ ((keys.take (i + 1)).map (tagArgsBlock bucketName tags)).flatten
  | [], cmd => by simp [tagLoop]
  | k :: rest, cmd => by
    intro c hc
    have hhead : (cmd.addArgs (tagArgsBlock bucketName tags k)).args
        = cmd.args ++ (((k :: rest).take 1).map (tagArgsBlock bucketName tags)).flatten := by
      simp [Cmd.addArgs]
    rcases hx : exec (cmd.addArgs (tagArgsBlock bucketName tags k)) with e | o
    · simp only [tagLoop, hx, List.mem_singleton] at hc
      exact ⟨0, by simp, hc ▸ hhead⟩
    · rcases h1 : o.stdout with _ | s1
      · simp only [tagLoop, hx, h1, List.mem_singleton] at hc
        exact ⟨0, by simp, hc ▸ hhead⟩
      · rcases h2 : o.stderr with _ | s2
        · simp only [tagLoop, hx, h1, h2, List.mem_singleton] at hc
          exact ⟨0, by simp, hc ▸ hhead⟩
        · simp only [tagLoop, hx, h1, h2, List.mem_cons] at hc
          rcases hc with rfl | hc
          · exact ⟨0, by simp, hhead⟩
          · obtain ⟨i, hi, hargs⟩ := tagLoop_mem_args exec bucketName tags rest
              (cmd.addArgs (tagArgsBlock bucketName tags k)) c hc
            refine ⟨i + 1, by simp; omega, ?_⟩
            rw [hargs]
            simp [Cmd.addArgs, List.take_succ_cons]

theorem tagLoop_mem_env (exec : Cmd → Except String Output) (bucketName tags : String) :
    ∀ (keys : List String) (cmd : Cmd), ∀ c ∈ (tagLoop exec bucketName tags keys cmd).1,
      c.env = cmd.env
  | [], cmd => by simp [tagLoop]
  | k :: rest, cmd => by
    intro c hc
    rcases hx : exec (cmd.addArgs (tagArgsBlock bucketName tags k)) with e | o
    · simp only [tagLoop, hx, List.mem_singleton] at hc
      rw [hc]; rfl
    · rcases h1 : o.stdout with _ | s1
      · simp only [tagLoop, hx, h1, List.mem_singleton] at hc
        rw [hc]; rfl
      · rcases h2 : o.stderr with _ | s2
        · simp only [tagLoop, hx, h1, h2, List.mem_singleton] at hc
          rw [hc]; rfl
        · simp only [tagLoop, hx, h1, h2, List.mem_cons] at hc
          rcases hc with rfl | hc
          · rfl
          · exact tagLoop_mem_env exec bucketName tags rest
              (cmd.addArgs (tagArgsBlock bucketName tags k)) c hc

theorem tagLoop_congr (exec exec2 : Cmd → Except String Output) (bucketName tags : String) :
    ∀ (keys : List String) (cmd : Cmd),
      (∀ c, cmd.args.length < c.args.length → exec c = exec2 c) →
      tagLoop exec bucketName tags keys cmd = tagLoop exec2 bucketName tags keys cmd
  | [], _, _ => rfl
  | k :: rest, cmd, h => by
    have hlen : cmd.args.length
        < (cmd.addArgs (tagArgsBlock bucketName tags k)).args.length := by
      simp [Cmd.addArgs, tagArgsBlock]
    have hx := h _ hlen
    have ih := tagLoop_congr exec exec2 bucketName tags rest
      (cmd.addArgs (tagArgsBlock bucketName tags k))
      (fun c hc => h c (lt_trans hlen hc))
    simp only [tagLoop, hx, ih]

end BackupTagger

namespace BackupTagger

/-! ## Orchestrator-level helper lemmas -/

theorem tikv_trace_take_two (exec : Cmd → Except String Output)
    (jsonParse : String → Option Json)
    (binPath bucketName pdHostAndPort tags formattedTime : String)
    (tOpt : Option (String × String × String)) :
    (tikv_backup exec jsonParse binPath bucketName pdHostAndPort tags
        formattedTime tOpt).1.take 2
      = [awsCreateBucketCmd binPath bucketName tOpt,
         tikvBrCmd binPath pdHostAndPort bucketName ("tikv/" ++ formattedTime) tOpt] := by
  cases hbr : exec (tikvBrCmd binPath pdHostAndPort bucketName
      ("tikv/" ++ formattedTime) tOpt) with
  | error e => simp [tikv_backup, hbr]
  | ok brOut =>
    cases h1 : brOut.stdout with
    | none => simp [tikv_backup, hbr, h1]
    | some s1 =>
      cases h2 : brOut.stderr with
      | none => simp [tikv_backup, hbr, h1, h2]
      | some s2 =>
        cases hlo : exec (awsListObjectsCmd (awsCreateBucketCmd binPath bucketName tOpt)
            bucketName ("tikv/" ++ formattedTime) tOpt) with
        | error e => simp [tikv_backup, hbr, h1, h2, hlo]
        | ok loOut =>
          cases h3 : loOut.stdout with
          | none => simp [tikv_backup, hbr, h1, h2, hlo, h3]
          | some s3 =>
            cases h4 : loOut.stderr with
            | none => simp [tikv_backup, hbr, h1, h2, hlo, h3, h4]
            | some s4 =>
              cases hk : parseListResponse jsonParse (some s3) with
              | error e => simp [tikv_backup, hbr, h1, h2, hlo, h3, h4, hk]
              | ok keys => simp [tikv_backup, hbr, h1, h2, hlo, h3, h4, hk]

theorem surreal_trace_take_two (exec : Cmd → Except String Output)
    (binPath bucketName namespace_ database address password tags : String)
    (tOpt : Option (String × String × String)) (formattedTime : String) :
    (surrealdb_backup exec binPath bucketName namespace_ database address password
        tags tOpt formattedTime).1.take 2
      = [awsCreateBucketCmd binPath bucketName tOpt,
         awsCpCmd (awsCreateBucketCmd binPath bucketName tOpt) bucketName
           (surrealStorageKey namespace_ formattedTime) tOpt] := by
  cases hcp : exec (awsCpCmd (awsCreateBucketCmd binPath bucketName tOpt) bucketName
      (surrealStorageKey namespace_ formattedTime) tOpt) with
  | error e => simp [surrealdb_backup, hcp]
  | ok cpOut =>
    cases hz : exec (zstdCmd binPath) with
    | error e => simp [surrealdb_backup, hcp, hz]
    | ok zOut =>
      cases hsu : exec (surrealCmd binPath address password namespace_ database) with
      | error e => simp [surrealdb_backup, hcp, hz, hsu]
      | ok suOut =>
        cases h1 : suOut.stderr with
        | none => simp [surrealdb_backup, hcp, hz, hsu, h1]
        | some s =>
          cases htg : exec (awsPutTaggingCmdStreamed
              (awsCpCmd (awsCreateBucketCmd binPath bucketName tOpt) bucketName
                (surrealStorageKey namespace_ formattedTime) tOpt)
              bucketName tags (surrealStorageKey namespace_ formattedTime) tOpt) with
          | error e => simp [surrealdb_backup, hcp, hz, hsu, h1, htg]
          | ok tgOut =>
            cases h2 : tgOut.stdout with
            | none => simp [surrealdb_backup, hcp, hz, hsu, h1, htg, h2]
            | some s2 => simp [surrealdb_backup, hcp, hz, hsu, h1, htg, h2]

theorem tikv_backup_congr (exec exec2 : Cmd → Except String Output)
    (jsonParse : String → Option Json)
    (binPath bucketName pdHostAndPort tags formattedTime : String)
    (tOpt : Option (String × String × String))
    (hbr : exec (tikvBrCmd binPath pdHostAndPort bucketName ("tikv/" ++ formattedTime) tOpt)
      = exec2 (tikvBrCmd binPath pdHostAndPort bucketName ("tikv/" ++ formattedTime) tOpt))
    (hlo : exec (awsListObjectsCmd (awsCreateBucketCmd binPath bucketName tOpt)
        bucketName ("tikv/" ++ formattedTime) tOpt)
      = exec2 (awsListObjectsCmd (awsCreateBucketCmd binPath bucketName tOpt)
        bucketName ("tikv/" ++ formattedTime) tOpt))
    (hloop : ∀ keys, tagLoop exec bucketName tags keys
        (awsListObjectsCmd (awsCreateBucketCmd binPath bucketName tOpt)
          bucketName ("tikv/" ++ formattedTime) tOpt)
      = tagLoop exec2 bucketName tags keys
        (awsListObjectsCmd (awsCreateBucketCmd binPath bucketName tOpt)
          bucketName ("tikv/" ++ formattedTime) tOpt)) :
    tikv_backup exec jsonParse binPath bucketName pdHostAndPort tags formattedTime tOpt
      = tikv_backup exec2 jsonParse binPath bucketName pdHostAndPort tags formattedTime tOpt := by
  simp only [tikv_backup, hbr, hlo, hloop]

theorem surrealdb_backup_congr (exec exec2 : Cmd → Except String Output)
    (binPath bucketName namespace_ database address password tags : String)
    (tOpt : Option (String × String × String)) (formattedTime : String)
    (hcp : exec (awsCpCmd (awsCreateBucketCmd binPath bucketName tOpt) bucketName
        (surrealStorageKey namespace_ formattedTime) tOpt)
      = exec2 (awsCpCmd (awsCreateBucketCmd binPath bucketName tOpt) bucketName
        (surrealStorageKey namespace_ formattedTime) tOpt))
    (hz : exec (zstdCmd binPath) = exec2 (zstdCmd binPath))
    (hsu : exec (surrealCmd binPath address password namespace_ database)
      = exec2 (surrealCmd binPath address password namespace_ database))
    (htg : exec (awsPutTaggingCmdStreamed
        (awsCpCmd (awsCreateBucketCmd binPath bucketName tOpt) bucketName
          (surrealStorageKey namespace_ formattedTime) tOpt)
        bucketName tags (surrealStorageKey namespace_ formattedTime) tOpt)
      = exec2 (awsPutTaggingCmdStreamed
        (awsCpCmd (awsCreateBucketCmd binPath bucketName tOpt) bucketName
          (surrealStorageKey namespace_ formattedTime) tOpt)
        bucketName tags (surrealStorageKey namespace_ formattedTime) tOpt)) :
    surrealdb_backup exec binPath bucketName namespace_ database address password
        tags tOpt formattedTime
      = surrealdb_backup exec2 binPath bucketName namespace_ database address password
        tags tOpt formattedTime := by
  simp only [surrealdb_backup, hcp, hz, hsu, htg]

end BackupTagger

namespace BackupTagger

/-! ## C10 -/

/-- C10: in the tikv path all aws invocations are built on one shared
mutable command value, so each later invocation's argv carries all earlier
aws argument lists prepended: the list-objects argv is the create-bucket
argv followed by its own block, and the i-th per-key tagging argv is the
list-objects argv followed by the tagging blocks of keys 0..i. -/
theorem tikv_arg_accumulation
    (exec : Cmd → Except String Output) (jsonParse : String → Option Json)
    (binPath bucketName pdHostAndPort tags formattedTime : String)
    (tOpt : Option (String × String × String)) (brOut loOut : Output)
    (brStdout brStderr listResponse loStderr : String) (keys : List String)
    (hbr : exec (tikvBrCmd binPath pdHostAndPort bucketName
        ("tikv/" ++ formattedTime) tOpt) = .ok brOut)
    (hbr1 : brOut.stdout = some brStdout) (hbr2 : brOut.stderr = some brStderr)
    (hlo : exec (awsListObjectsCmd (awsCreateBucketCmd binPath bucketName tOpt)
        bucketName ("tikv/" ++ formattedTime) tOpt) = .ok loOut)
    (hlo1 : loOut.stdout = some listResponse) (hlo2 : loOut.stderr = some loStderr)
    (hkeys : parseListResponse jsonParse (some listResponse) = .ok keys) :
    (tikv_backup exec jsonParse binPath bucketName pdHostAndPort tags formattedTime tOpt).1
      = [awsCreateBucketCmd binPath bucketName tOpt,
         tikvBrCmd binPath pdHostAndPort bucketName ("tikv/" ++ formattedTime) tOpt,
         awsListObjectsCmd (awsCreateBucketCmd binPath bucketName tOpt) bucketName
           ("tikv/" ++ formattedTime) tOpt]
        ++ (tagLoop exec bucketName tags keys
             (awsListObjectsCmd (awsCreateBucketCmd binPath bucketName tOpt) bucketName
               ("tikv/" ++ formattedTime) tOpt)).1
    ∧ (awsListObjectsCmd (awsCreateBucketCmd binPath bucketName tOpt) bucketName
         ("tikv/" ++ formattedTime) tOpt).args
        = (awsCreateBucketCmd binPath bucketName tOpt).args
          ++ listObjectsArgs bucketName ("tikv/" ++ formattedTime) tOpt
    ∧ ∀ c ∈ (tagLoop exec bucketName tags keys
         (awsListObjectsCmd (awsCreateBucketCmd binPath bucketName tOpt) bucketName
           ("tikv/" ++ formattedTime) tOpt)).1,
        ∃ i, i < keys.length ∧
          c.args = (awsListObjectsCmd (awsCreateBucketCmd binPath bucketName tOpt)
              bucketName ("tikv/" ++ formattedTime) tOpt).args
            ++ ((keys.take (i + 1)).map (tagArgsBlock bucketName tags)).flatten := by
  refine ⟨?_, awsListObjectsCmd_args _ _ _ _, tagLoop_mem_args exec bucketName tags keys _⟩
  simp [tikv_backup, hbr, hbr1, hbr2, hlo, hlo1, hlo2, hkeys]

theorem tikv_arg_accumulation_witness :
    (tikv_backup (fun _ => .ok ⟨0, some "resp", some ""⟩)
        (fun s => if s = "resp"
          then some (Json.obj [("Contents",
            Json.arr [Json.obj [("Key", Json.str "a")], Json.obj [("Key", Json.str "b")]])])
          else none)
        "/r" "bkt" "pd" "tagdoc" "ts" none).1
      = [awsCreateBucketCmd "/r" "bkt" none,
         tikvBrCmd "/r" "pd" "bkt" ("tikv/" ++ "ts") none,
         awsListObjectsCmd (awsCreateBucketCmd "/r" "bkt" none) "bkt" ("tikv/" ++ "ts") none]
        ++ (tagLoop (fun _ => .ok ⟨0, some "resp", some ""⟩) "bkt" "tagdoc" ["a", "b"]
             (awsListObjectsCmd (awsCreateBucketCmd "/r" "bkt" none) "bkt"
               ("tikv/" ++ "ts") none)).1 :=
  (tikv_arg_accumulation (fun _ => .ok ⟨0, some "resp", some ""⟩)
    (fun s => if s = "resp"
      then some (Json.obj [("Contents",
        Json.arr [Json.obj [("Key", Json.str "a")], Json.obj [("Key", Json.str "b")]])])
      else none)
    "/r" "bkt" "pd" "tagdoc" "ts" none
    ⟨0, some "resp", some ""⟩ ⟨0, some "resp", some ""⟩ "resp" "" "resp" "" ["a", "b"]
    rfl rfl rfl rfl rfl rfl rfl).1

/-! ## C9 -/

/-- C9: bucket creation is best-effort in both backup kinds: the trace
always begins with the create-bucket command immediately followed by the
backup-producing command (so the backup step is attempted no matter how
bucket creation went), and the entire run — trace and result — is
unchanged when the executor's behaviour on the create-bucket command
changes arbitrarily (the two executors below may disagree only there). -/
theorem ensure_bucket_best_effort
    (exec exec2 : Cmd → Except String Output) (jsonParse : String → Option Json)
    (binPath bucketName pdHostAndPort tags formattedTime namespace_ database
      address password : String)
    (tOpt : Option (String × String × String)) :
    ((tikv_backup exec jsonParse binPath bucketName pdHostAndPort tags
        formattedTime tOpt).1.take 2
      = [awsCreateBucketCmd binPath bucketName tOpt,
         tikvBrCmd binPath pdHostAndPort bucketName ("tikv/" ++ formattedTime) tOpt])
    ∧ ((surrealdb_backup exec binPath bucketName namespace_ database address password
        tags tOpt formattedTime).1.take 2
      = [awsCreateBucketCmd binPath bucketName tOpt,
         awsCpCmd (awsCreateBucketCmd binPath bucketName tOpt) bucketName
           (surrealStorageKey namespace_ formattedTime) tOpt])
    ∧ ((∀ c, c ≠ awsCreateBucketCmd binPath bucketName tOpt → exec c = exec2 c) →
        tikv_backup exec jsonParse binPath bucketName pdHostAndPort tags formattedTime tOpt
          = tikv_backup exec2 jsonParse binPath bucketName pdHostAndPort tags
              formattedTime tOpt
        ∧ surrealdb_backup exec binPath bucketName namespace_ database address password
            tags tOpt formattedTime
          = surrealdb_backup exec2 binPath bucketName namespace_ database address password
              tags tOpt formattedTime) := by
  have hcb1 : (awsCreateBucketCmd binPath bucketName tOpt).args.length
      < (awsListObjectsCmd (awsCreateBucketCmd binPath bucketName tOpt) bucketName
          ("tikv/" ++ formattedTime) tOpt).args.length := by
    rw [awsListObjectsCmd_args, List.length_append]
    have : 1 ≤ (listObjectsArgs bucketName ("tikv/" ++ formattedTime) tOpt).length := by
      cases tOpt <;> simp [listObjectsArgs]
    omega
  have hcb2 : (awsCreateBucketCmd binPath bucketName tOpt).args.length
      ≤ (awsCpCmd (awsCreateBucketCmd binPath bucketName tOpt) bucketName
          (surrealStorageKey namespace_ formattedTime) tOpt).args.length := by
    rw [awsCpCmd_args, List.length_append]
    omega
  refine ⟨tikv_trace_take_two exec jsonParse binPath bucketName pdHostAndPort tags
      formattedTime tOpt,
    surreal_trace_take_two exec binPath bucketName namespace_ database address password
      tags tOpt formattedTime,
    fun hne => ⟨?_, ?_⟩⟩
  · apply tikv_backup_congr
    · exact hne _ (tikvBr_ne_createBucket binPath binPath pdHostAndPort bucketName
        ("tikv/" ++ formattedTime) bucketName tOpt)
    · exact hne _ (listObjects_ne_createBucket (awsCreateBucketCmd binPath bucketName tOpt)
        bucketName ("tikv/" ++ formattedTime) bucketName binPath tOpt tOpt rfl)
    · intro keys
      apply tagLoop_congr
      intro c hc
      apply hne
      apply Cmd.ne_of_args_length
      omega
  · apply surrealdb_backup_congr
    · exact hne _ (cp_ne_createBucket (awsCreateBucketCmd binPath bucketName tOpt)
        bucketName (surrealStorageKey namespace_ formattedTime) bucketName binPath
        tOpt tOpt rfl)
    · exact hne _ (zstd_ne_createBucket binPath binPath bucketName tOpt)
    · exact hne _ (surreal_ne_createBucket binPath address password namespace_ database
        binPath bucketName tOpt)
    · exact hne _ (putTagging_ne_createBucket
        (awsCpCmd (awsCreateBucketCmd binPath bucketName tOpt) bucketName
          (surrealStorageKey namespace_ formattedTime) tOpt)
        bucketName tags (surrealStorageKey namespace_ formattedTime) bucketName binPath
        tOpt tOpt hcb2)

theorem ensure_bucket_best_effort_witness :
    tikv_backup (fun _ => .ok ⟨0, some "", some ""⟩) (fun _ => none)
        "/r" "bkt" "pd" "tagdoc" "ts" none
      = tikv_backup
          (fun c => if c = awsCreateBucketCmd "/r" "bkt" none
            then .error "spawn failed" else .ok ⟨0, some "", some ""⟩)
          (fun _ => none) "/r" "bkt" "pd" "tagdoc" "ts" none :=
  ((ensure_bucket_best_effort (fun _ => .ok ⟨0, some "", some ""⟩)
      (fun c => if c = awsCreateBucketCmd "/r" "bkt" none
        then .error "spawn failed" else .ok ⟨0, some "", some ""⟩)
      (fun _ => none) "/r" "bkt" "pd" "tagdoc" "ts" "ns" "db" "addr" "pw" none).2.2
    (fun c hc => (if_neg hc).symm)).1

end BackupTagger

namespace BackupTagger

/-! ## C3 -/

theorem putTagging_ne_prev (prev : Cmd) (bucketName tags storageKey : String)
    (t : Option (String × String × String)) :
    awsPutTaggingCmdStreamed prev bucketName tags storageKey t ≠ prev := by
  apply Cmd.ne_of_args_length
  rw [awsPutTaggingCmdStreamed_args, List.length_append]
  have : 1 ≤ (putTaggingArgsStreamed bucketName tags storageKey t).length := by
    cases t <;> simp [putTaggingArgsStreamed]
  omega

/-- C3 counterexample: with every pipeline stage starting fine but exiting
with status 1 (non-zero), the surrealdb orchestrator still issues the
put-object-tagging command and still returns success, instead of entering
a failed state and skipping tagging as the claim states. -/
theorem streamed_failure_counterexample :
    (surrealTaggingCmd "/r" "bkt" "ns" "tagdoc" "ts" none
        ∈ (surrealdb_backup (fun _ => .ok ⟨1, some "", some ""⟩)
            "/r" "bkt" "ns" "db" "addr" "pw" "tagdoc" none "ts").1)
    ∧ (surrealdb_backup (fun _ => .ok ⟨1, some "", some ""⟩)
        "/r" "bkt" "ns" "db" "addr" "pw" "tagdoc" none "ts").2
      = .ok ⟨1, some "", some ""⟩ := by
  have h : (surrealdb_backup (fun _ => .ok ⟨1, some "", some ""⟩)
      "/r" "bkt" "ns" "db" "addr" "pw" "tagdoc" none "ts").1
    = [awsCreateBucketCmd "/r" "bkt" none,
       awsCpCmd (awsCreateBucketCmd "/r" "bkt" none) "bkt"
         (surrealStorageKey "ns" "ts") none,
       zstdCmd "/r",
       surrealCmd "/r" "addr" "pw" "ns" "db",
       surrealTaggingCmd "/r" "bkt" "ns" "tagdoc" "ts" none] := rfl
  refine ⟨?_, rfl⟩
  rw [h]
  simp

/-- C3 (amended): the put-object-tagging step of the streamed pipeline is
attempted exactly when the upload, compress and export stages all start
and complete (and the export stage's captured stderr is decodable) —
regardless of their exit statuses.  A stage exiting non-zero therefore
does not prevent tagging; only a stage that fails to start or be waited
on (or undecodable captured output) aborts the run before tagging. -/
theorem streamed_tagging_iff (exec : Cmd → Except String Output)
    (binPath bucketName namespace_ database address password tags
      formattedTime : String)
    (tOpt : Option (String × String × String)) :
    (surrealTaggingCmd binPath bucketName namespace_ tags formattedTime tOpt
        ∈ (surrealdb_backup exec binPath bucketName namespace_ database address
            password tags tOpt formattedTime).1)
    ↔ (∃ o1 o2 o3,
        exec (awsCpCmd (awsCreateBucketCmd binPath bucketName tOpt) bucketName
          (surrealStorageKey namespace_ formattedTime) tOpt) = .ok o1
        ∧ exec (zstdCmd binPath) = .ok o2
        ∧ exec (surrealCmd binPath address password namespace_ database) = .ok o3
        ∧ o3.stderr.isSome = true) := by
  have hcb6 : 6 ≤ (awsCreateBucketCmd binPath bucketName tOpt).args.length := by
    rw [awsCreateBucketCmd_args]
    cases tOpt <;> simp [createBucketArgs]
  have hcpblk : 4 ≤ (cpArgs bucketName (surrealStorageKey namespace_ formattedTime)
      tOpt).length := by
    cases tOpt <;> simp [cpArgs]
  have htgblk : 8 ≤ (putTaggingArgsStreamed bucketName tags
      (surrealStorageKey namespace_ formattedTime) tOpt).length := by
    cases tOpt <;> simp [putTaggingArgsStreamed]
  have hcplen : (awsCpCmd (awsCreateBucketCmd binPath bucketName tOpt) bucketName
      (surrealStorageKey namespace_ formattedTime) tOpt).args.length
      = (awsCreateBucketCmd binPath bucketName tOpt).args.length
        + (cpArgs bucketName (surrealStorageKey namespace_ formattedTime) tOpt).length := by
    rw [awsCpCmd_args, List.length_append]
  have htglen : (surrealTaggingCmd binPath bucketName namespace_ tags formattedTime
      tOpt).args.length
      = (awsCpCmd (awsCreateBucketCmd binPath bucketName tOpt) bucketName
          (surrealStorageKey namespace_ formattedTime) tOpt).args.length
        + (putTaggingArgsStreamed bucketName tags
            (surrealStorageKey namespace_ formattedTime) tOpt).length := by
    rw [surrealTaggingCmd, awsPutTaggingCmdStreamed_args, List.length_append]
  have hzlen : (zstdCmd binPath).args.length = 5 := by simp [zstdCmd]
  have hsulen : (surrealCmd binPath address password namespace_ database).args.length
      = 12 := by simp [surrealCmd]
  have h1 : surrealTaggingCmd binPath bucketName namespace_ tags formattedTime tOpt
      ≠ awsCreateBucketCmd binPath bucketName tOpt :=
    Cmd.ne_of_args_length (by omega)
  have h2 : surrealTaggingCmd binPath bucketName namespace_ tags formattedTime tOpt
      ≠ awsCpCmd (awsCreateBucketCmd binPath bucketName tOpt) bucketName
          (surrealStorageKey namespace_ formattedTime) tOpt :=
    putTagging_ne_prev _ _ _ _ _
  have h3 : surrealTaggingCmd binPath bucketName namespace_ tags formattedTime tOpt
      ≠ zstdCmd binPath :=
    Cmd.ne_of_args_length (by omega)
  have h4 : surrealTaggingCmd binPath bucketName namespace_ tags formattedTime tOpt
      ≠ surrealCmd binPath address password namespace_ database :=
    Cmd.ne_of_args_length (by omega)
  cases hcp : exec (awsCpCmd (awsCreateBucketCmd binPath bucketName tOpt) bucketName
      (surrealStorageKey namespace_ formattedTime) tOpt) with
  | error e =>
    simp only [surrealdb_backup, hcp]
    apply iff_of_false
    · intro hmem
      simp only [List.mem_cons, List.not_mem_nil, or_false] at hmem
      rcases hmem with h | h
      · exact h1 h
      · exact h2 h
    · rintro ⟨o1, o2, o3, ho1, ho2, ho3, hss⟩
      exact Except.noConfusion ho1
  | ok o1 =>
    cases hz : exec (zstdCmd binPath) with
    | error e =>
      simp only [surrealdb_backup, hcp, hz]
      apply iff_of_false
      · intro hmem
        simp only [List.mem_cons, List.not_mem_nil, or_false] at hmem
        rcases hmem with h | h | h
        · exact h1 h
        · exact h2 h
        · exact h3 h
      · rintro ⟨p1, p2, p3, hp1, hp2, hp3, hss⟩
        exact Except.noConfusion hp2
    | ok o2 =>
      cases hsu : exec (surrealCmd binPath address password namespace_ database) with
      | error e =>
        simp only [surrealdb_backup, hcp, hz, hsu]
        apply iff_of_false
        · intro hmem
          simp only [List.mem_cons, List.not_mem_nil, or_false] at hmem
          rcases hmem with h | h | h | h
          · exact h1 h
          · exact h2 h
          · exact h3 h
          · exact h4 h
        · rintro ⟨p1, p2, p3, hp1, hp2, hp3, hss⟩
          exact Except.noConfusion hp3
      | ok o3 =>
        cases hst : o3.stderr with
        | none =>
          simp only [surrealdb_backup, hcp, hz, hsu, hst]
          apply iff_of_false
          · intro hmem
            simp only [List.mem_cons, List.not_mem_nil, or_false] at hmem
            rcases hmem with h | h | h | h
            · exact h1 h
            · exact h2 h
            · exact h3 h
            · exact h4 h
          · rintro ⟨p1, p2, p3, hp1, hp2, hp3, hss⟩
            obtain rfl : o3 = p3 := Except.ok.inj hp3
            rw [hst] at hss
            exact Bool.noConfusion hss
        | some s =>
          cases htg : exec (awsPutTaggingCmdStreamed
              (awsCpCmd (awsCreateBucketCmd binPath bucketName tOpt) bucketName
                (surrealStorageKey namespace_ formattedTime) tOpt)
              bucketName tags (surrealStorageKey namespace_ formattedTime) tOpt) with
          | error e =>
            simp only [surrealdb_backup, hcp, hz, hsu, hst, htg]
            exact iff_of_true (by simp [surrealTaggingCmd])
              ⟨o1, o2, o3, rfl, rfl, rfl, by rw [hst]; rfl⟩
          | ok tgOut =>
            cases hts : tgOut.stdout with
            | none =>
              simp only [surrealdb_backup, hcp, hz, hsu, hst, htg, hts]
              exact iff_of_true (by simp [surrealTaggingCmd])
                ⟨o1, o2, o3, rfl, rfl, rfl, by rw [hst]; rfl⟩
            | some s2 =>
              simp only [surrealdb_backup, hcp, hz, hsu, hst, htg, hts]
              exact iff_of_true (by simp [surrealTaggingCmd])
                ⟨o1, o2, o3, rfl, rfl, rfl, by rw [hst]; rfl⟩

theorem streamed_tagging_iff_witness :
    surrealTaggingCmd "/r" "bkt" "ns" "tagdoc" "ts" none
      ∈ (surrealdb_backup (fun _ => .ok ⟨0, some "", some ""⟩)
          "/r" "bkt" "ns" "db" "addr" "pw" "tagdoc" none "ts").1 :=
  (streamed_tagging_iff (fun _ => .ok ⟨0, some "", some ""⟩)
      "/r" "bkt" "ns" "db" "addr" "pw" "tagdoc" "ts" none).mpr
    ⟨⟨0, some "", some ""⟩, ⟨0, some "", some ""⟩, ⟨0, some "", some ""⟩,
     rfl, rfl, rfl, rfl⟩

end BackupTagger

namespace BackupTagger

/-! ## C5 -/

theorem Cmd.envCreds_env_of_creds (c : Cmd) (awsId awsKey : String)
    (h : c.env = [("AWS_ACCESS_KEY_ID", awsId), ("AWS_SECRET_ACCESS_KEY", awsKey)]) :
    (c.envCreds awsId awsKey).env
      = [("AWS_ACCESS_KEY_ID", awsId), ("AWS_SECRET_ACCESS_KEY", awsKey)] := by
  obtain ⟨p, a, e⟩ := c
  replace h : e = [("AWS_ACCESS_KEY_ID", awsId), ("AWS_SECRET_ACCESS_KEY", awsKey)] := h
  subst h
  rfl

theorem awsCreateBucketCmd_env_some (binPath bucketName : String)
    (t : String × String × String) :
    (awsCreateBucketCmd binPath bucketName (some t)).env
      = [("AWS_ACCESS_KEY_ID", t.2.1), ("AWS_SECRET_ACCESS_KEY", t.2.2)] := rfl

theorem awsCreateBucketCmd_env_none (binPath bucketName : String) :
    (awsCreateBucketCmd binPath bucketName none).env = [] := rfl

/-- C5: for every Object-Store Tag Client invocation of a run — the
create-bucket command, the tikv list-objects command, every tikv per-key
tagging command, the streamed upload command, and the streamed tagging
command — the explicit `--endpoint-url` argument together with both
injected credential environment variables is present if and only if all
three override fields are non-blank; and when any field is blank the
invocation carries no injected environment and its argv is exactly the
endpoint-free composition of the operation blocks. -/
theorem endpoint_override_iff (exec : Cmd → Except String Output)
    (binPath bucketName namespace_ tags formattedTime : String) (keys : List String)
    (awsEndpoint awsId awsKey : String) :
    ((("--endpoint-url" ∈ (awsCreateBucketCmd binPath bucketName
          (s3EndpointOf awsEndpoint awsId awsKey)).args)
       ∧ "AWS_ACCESS_KEY_ID" ∈ (awsCreateBucketCmd binPath bucketName
          (s3EndpointOf awsEndpoint awsId awsKey)).env.map Prod.fst
       ∧ "AWS_SECRET_ACCESS_KEY" ∈ (awsCreateBucketCmd binPath bucketName
          (s3EndpointOf awsEndpoint awsId awsKey)).env.map Prod.fst)
      ↔ ¬(awsEndpoint.trim = "" ∨ awsId.trim = "" ∨ awsKey.trim = ""))
    ∧ ((("--endpoint-url" ∈ (awsListObjectsCmd (awsCreateBucketCmd binPath bucketName
          (s3EndpointOf awsEndpoint awsId awsKey)) bucketName ("tikv/" ++ formattedTime)
          (s3EndpointOf awsEndpoint awsId awsKey)).args)
       ∧ "AWS_ACCESS_KEY_ID" ∈ (awsListObjectsCmd (awsCreateBucketCmd binPath bucketName
          (s3EndpointOf awsEndpoint awsId awsKey)) bucketName ("tikv/" ++ formattedTime)
          (s3EndpointOf awsEndpoint awsId awsKey)).env.map Prod.fst
       ∧ "AWS_SECRET_ACCESS_KEY" ∈ (awsListObjectsCmd (awsCreateBucketCmd binPath bucketName
          (s3EndpointOf awsEndpoint awsId awsKey)) bucketName ("tikv/" ++ formattedTime)
          (s3EndpointOf awsEndpoint awsId awsKey)).env.map Prod.fst)
      ↔ ¬(awsEndpoint.trim = "" ∨ awsId.trim = "" ∨ awsKey.trim = ""))
    ∧ (∀ c ∈ (tagLoop exec bucketName tags keys
          (awsListObjectsCmd (awsCreateBucketCmd binPath bucketName
            (s3EndpointOf awsEndpoint awsId awsKey)) bucketName ("tikv/" ++ formattedTime)
            (s3EndpointOf awsEndpoint awsId awsKey))).1,
        (("--endpoint-url" ∈ c.args)
          ∧ "AWS_ACCESS_KEY_ID" ∈ c.env.map Prod.fst
          ∧ "AWS_SECRET_ACCESS_KEY" ∈ c.env.map Prod.fst)
        ↔ ¬(awsEndpoint.trim = "" ∨ awsId.trim = "" ∨ awsKey.trim = ""))
    ∧ ((("--endpoint-url" ∈ (awsCpCmd (awsCreateBucketCmd binPath bucketName
          (s3EndpointOf awsEndpoint awsId awsKey)) bucketName
          (surrealStorageKey namespace_ formattedTime)
          (s3EndpointOf awsEndpoint awsId awsKey)).args)
       ∧ "AWS_ACCESS_KEY_ID" ∈ (awsCpCmd (awsCreateBucketCmd binPath bucketName
          (s3EndpointOf awsEndpoint awsId awsKey)) bucketName
          (surrealStorageKey namespace_ formattedTime)
          (s3EndpointOf awsEndpoint awsId awsKey)).env.map Prod.fst
       ∧ "AWS_SECRET_ACCESS_KEY" ∈ (awsCpCmd (awsCreateBucketCmd binPath bucketName
          (s3EndpointOf awsEndpoint awsId awsKey)) bucketName
          (surrealStorageKey namespace_ formattedTime)
          (s3EndpointOf awsEndpoint awsId awsKey)).env.map Prod.fst)
      ↔ ¬(awsEndpoint.trim = "" ∨ awsId.trim = "" ∨ awsKey.trim = ""))
    ∧ ((("--endpoint-url" ∈ (surrealTaggingCmd binPath bucketName namespace_ tags
          formattedTime (s3EndpointOf awsEndpoint awsId awsKey)).args)
       ∧ "AWS_ACCESS_KEY_ID" ∈ (surrealTaggingCmd binPath bucketName namespace_ tags
          formattedTime (s3EndpointOf awsEndpoint awsId awsKey)).env.map Prod.fst
       ∧ "AWS_SECRET_ACCESS_KEY" ∈ (surrealTaggingCmd binPath bucketName namespace_ tags
          formattedTime (s3EndpointOf awsEndpoint awsId awsKey)).env.map Prod.fst)
      ↔ ¬(awsEndpoint.trim = "" ∨ awsId.trim = "" ∨ awsKey.trim = ""))
    ∧ ((awsEndpoint.trim = "" ∨ awsId.trim = "" ∨ awsKey.trim = "") →
        (awsCreateBucketCmd binPath bucketName
            (s3EndpointOf awsEndpoint awsId awsKey)).env = []
        ∧ (awsCreateBucketCmd binPath bucketName
            (s3EndpointOf awsEndpoint awsId awsKey)).args
          = createBucketArgs bucketName none
        ∧ (awsListObjectsCmd (awsCreateBucketCmd binPath bucketName
            (s3EndpointOf awsEndpoint awsId awsKey)) bucketName ("tikv/" ++ formattedTime)
            (s3EndpointOf awsEndpoint awsId awsKey)).args
          = createBucketArgs bucketName none
            ++ listObjectsArgs bucketName ("tikv/" ++ formattedTime) none
        ∧ (∀ c ∈ (tagLoop exec bucketName tags keys
              (awsListObjectsCmd (awsCreateBucketCmd binPath bucketName
                (s3EndpointOf awsEndpoint awsId awsKey)) bucketName
                ("tikv/" ++ formattedTime)
                (s3EndpointOf awsEndpoint awsId awsKey))).1, c.env = [])
        ∧ (awsCpCmd (awsCreateBucketCmd binPath bucketName
            (s3EndpointOf awsEndpoint awsId awsKey)) bucketName
            (surrealStorageKey namespace_ formattedTime)
            (s3EndpointOf awsEndpoint awsId awsKey)).args
          = createBucketArgs bucketName none
            ++ cpArgs bucketName (surrealStorageKey namespace_ formattedTime) none
        ∧ (surrealTaggingCmd binPath bucketName namespace_ tags formattedTime
            (s3EndpointOf awsEndpoint awsId awsKey)).args
          = createBucketArgs bucketName none
            ++ cpArgs bucketName (surrealStorageKey namespace_ formattedTime) none
            ++ putTaggingArgsStreamed bucketName tags
                (surrealStorageKey namespace_ formattedTime) none) := by
  by_cases hb : (awsEndpoint.trim = "" ∨ awsId.trim = "" ∨ awsKey.trim = "")
  · have hs : s3EndpointOf awsEndpoint awsId awsKey = none := by
      rw [s3EndpointOf, if_pos hb]
    rw [hs]
    have hcbenv : (awsCreateBucketCmd binPath bucketName none).env = [] := rfl
    have hloenv : (awsListObjectsCmd (awsCreateBucketCmd binPath bucketName none)
        bucketName ("tikv/" ++ formattedTime) none).env = [] := rfl
    have hcpenv : (awsCpCmd (awsCreateBucketCmd binPath bucketName none) bucketName
        (surrealStorageKey namespace_ formattedTime) none).env = [] := rfl
    have htgenv : (surrealTaggingCmd binPath bucketName namespace_ tags formattedTime
        none).env = [] := rfl
    refine ⟨?_, ?_, ?_, ?_, ?_, ?_⟩
    · apply iff_of_false
      · rintro ⟨hmem, hid, hkey⟩
        rw [hcbenv] at hid
        simp at hid
      · exact not_not_intro hb
    · apply iff_of_false
      · rintro ⟨hmem, hid, hkey⟩
        rw [hloenv] at hid
        simp at hid
      · exact not_not_intro hb
    · intro c hc
      have henv := tagLoop_mem_env exec bucketName tags keys _ c hc
      apply iff_of_false
      · rintro ⟨hmem, hid, hkey⟩
        rw [henv, hloenv] at hid
        simp at hid
      · exact not_not_intro hb
    · apply iff_of_false
      · rintro ⟨hmem, hid, hkey⟩
        rw [hcpenv] at hid
        simp at hid
      · exact not_not_intro hb
    · apply iff_of_false
      · rintro ⟨hmem, hid, hkey⟩
        rw [htgenv] at hid
        simp at hid
      · exact not_not_intro hb
    · intro _
      refine ⟨rfl, awsCreateBucketCmd_args binPath bucketName none, ?_, ?_, ?_, ?_⟩
      · rw [awsListObjectsCmd_args, awsCreateBucketCmd_args]
      · intro c hc
        rw [tagLoop_mem_env exec bucketName tags keys _ c hc, hloenv]
      · rw [awsCpCmd_args, awsCreateBucketCmd_args]
      · rw [surrealTaggingCmd, awsPutTaggingCmdStreamed_args, awsCpCmd_args,
          awsCreateBucketCmd_args]
  · have hs : s3EndpointOf awsEndpoint awsId awsKey
        = some (awsEndpoint, awsId, awsKey) := by
      rw [s3EndpointOf, if_neg hb]
    rw [hs]
    have hcbenv := awsCreateBucketCmd_env_some binPath bucketName
      (awsEndpoint, awsId, awsKey)
    have hloenv : (awsListObjectsCmd (awsCreateBucketCmd binPath bucketName
        (some (awsEndpoint, awsId, awsKey))) bucketName ("tikv/" ++ formattedTime)
        (some (awsEndpoint, awsId, awsKey))).env
        = [("AWS_ACCESS_KEY_ID", awsId), ("AWS_SECRET_ACCESS_KEY", awsKey)] :=
      Cmd.envCreds_env_of_creds _ _ _ hcbenv
    have hcpenv : (awsCpCmd (awsCreateBucketCmd binPath bucketName
        (some (awsEndpoint, awsId, awsKey))) bucketName
        (surrealStorageKey namespace_ formattedTime)
        (some (awsEndpoint, awsId, awsKey))).env
        = [("AWS_ACCESS_KEY_ID", awsId), ("AWS_SECRET_ACCESS_KEY", awsKey)] :=
      Cmd.envCreds_env_of_creds _ _ _ hcbenv
    have htgenv : (surrealTaggingCmd binPath bucketName namespace_ tags formattedTime
        (some (awsEndpoint, awsId, awsKey))).env
        = [("AWS_ACCESS_KEY_ID", awsId), ("AWS_SECRET_ACCESS_KEY", awsKey)] :=
      Cmd.envCreds_env_of_creds _ _ _ hcpenv
    have hcbarg : "--endpoint-url" ∈ (awsCreateBucketCmd binPath bucketName
        (some (awsEndpoint, awsId, awsKey))).args := by
      rw [awsCreateBucketCmd_args]
      simp [createBucketArgs]
    have hloarg : "--endpoint-url" ∈ (awsListObjectsCmd (awsCreateBucketCmd binPath
        bucketName (some (awsEndpoint, awsId, awsKey))) bucketName
        ("tikv/" ++ formattedTime) (some (awsEndpoint, awsId, awsKey))).args := by
      rw [awsListObjectsCmd_args]
      exact List.mem_append_left _ hcbarg
    have hcparg : "--endpoint-url" ∈ (awsCpCmd (awsCreateBucketCmd binPath bucketName
        (some (awsEndpoint, awsId, awsKey))) bucketName
        (surrealStorageKey namespace_ formattedTime)
        (some (awsEndpoint, awsId, awsKey))).args := by
      rw [awsCpCmd_args]
      exact List.mem_append_left _ hcbarg
    have htgarg : "--endpoint-url" ∈ (surrealTaggingCmd binPath bucketName namespace_
        tags formattedTime (some (awsEndpoint, awsId, awsKey))).args := by
      rw [surrealTaggingCmd, awsPutTaggingCmdStreamed_args]
      exact List.mem_append_left _ hcparg
    refine ⟨?_, ?_, ?_, ?_, ?_, fun hcontra => absurd hcontra hb⟩
    · exact iff_of_true ⟨hcbarg, by rw [hcbenv]; simp, by rw [hcbenv]; simp⟩ hb
    · exact iff_of_true ⟨hloarg, by rw [hloenv]; simp, by rw [hloenv]; simp⟩ hb
    · intro c hc
      have henv := tagLoop_mem_env exec bucketName tags keys _ c hc
      obtain ⟨i, hi, hargs⟩ := tagLoop_mem_args exec bucketName tags keys _ c hc
      refine iff_of_true ⟨?_, ?_, ?_⟩ hb
      · rw [hargs]
        exact List.mem_append_left _ hloarg
      · rw [henv, hloenv]
        simp
      · rw [henv, hloenv]
        simp
    · exact iff_of_true ⟨hcparg, by rw [hcpenv]; simp, by rw [hcpenv]; simp⟩ hb
    · exact iff_of_true ⟨htgarg, by rw [htgenv]; simp, by rw [htgenv]; simp⟩ hb

theorem endpoint_override_iff_witness :
    ("--endpoint-url" ∈ (awsCreateBucketCmd "/r" "bkt"
        (s3EndpointOf "http://minio" "id" "key")).args
      ∧ "AWS_ACCESS_KEY_ID" ∈ (awsCreateBucketCmd "/r" "bkt"
        (s3EndpointOf "http://minio" "id" "key")).env.map Prod.fst
      ∧ "AWS_SECRET_ACCESS_KEY" ∈ (awsCreateBucketCmd "/r" "bkt"
        (s3EndpointOf "http://minio" "id" "key")).env.map Prod.fst)
    ↔ ¬(("http://minio").trim = "" ∨ ("id").trim = "" ∨ ("key").trim = "") :=
  (endpoint_override_iff (fun _ => .ok ⟨0, some "", some ""⟩)
    "/r" "bkt" "ns" "tagdoc" "ts" [] "http://minio" "id" "key").1

end BackupTagger
